import Mathlib

/-
  Verification of the user-management backend core (Go reference backend).

  The definitions below are a shallow embedding of:
    - src/backend/internal/models/user.go            (data model, validate tags)
    - src/unnamed/part_003                           (validator + repository)
    - src/backend/internal/service/user_service.go   (user service)
    - src/backend/Makefile, lines 56-210             (echo HTTP handlers, package api)
    - src/unnamed/part_024                           (CREATE TABLE users: UNIQUE(email))

  Go error values are modelled as their message strings; time.Now() is
  modelled by explicit Nat timestamps handed to each operation (Go's clock
  is monotonic, so theorems about traces take monotonicity as a hypothesis).
-/

namespace UserMgmt

/-! ## Data model (src/backend/internal/models/user.go, user_status.go) -/

/-- UserStatus is a string type in Go (type UserStatus string). -/
abbrev UserStatus := String

def UserStatusActive : UserStatus := "A"

def UserStatusInactive : UserStatus := "I"

def UserStatusTerminated : UserStatus := "T"

/-- UserCommon: the common request/entity fields, with their validate tags
    embedded below in validateUserCommon. -/
structure UserCommon where
  userName : String
  firstName : String
  lastName : String
  email : String
  userStatus : UserStatus
  department : String
deriving DecidableEq, Repr

/-- User: user_id primary key (serial), the common fields, created_at and
    updated_at timestamps (modelled as Nat). -/
structure User extends UserCommon where
  userID : Int
  createdAt : Nat
  updatedAt : Nat
deriving DecidableEq, Repr

/-- UserCreateRequest wraps UserCommon (models/user.go). -/
abbrev UserCreateRequest := UserCommon

/-- UserUpdateRequest wraps UserCommon (models/user.go). -/
abbrev UserUpdateRequest := UserCommon

/-! ## Validator (src/unnamed/part_003, package validator, plus the
    validate struct tags of models/user.go interpreted per go-playground
    validator semantics: tags run left to right, first failing tag per
    field is reported, all fields are checked). -/

/-- alphanum tag: the go-playground rule is the regex [a-zA-Z0-9]+ anchored,
    i.e. nonempty and every character ASCII alphanumeric. -/
def isAlphanumStr (s : String) : Bool :=
  s != "" && s.data.all Char.isAlphanum

/-- Modelled fragment of the alphanumunicode tag (anchored regex over the
    Unicode letter/digit classes); the ASCII alphanumeric fragment is all the
    theorems below exercise, the full Unicode tables live in the external
    go-playground library, not in this repository. -/
def isUnicodeLetterOrDigit (c : Char) : Bool :=
  c.isAlphanum

/-- alphanumunicode tag: nonempty, all characters Unicode letters/digits. -/
def isAlphanumUnicodeStr (s : String) : Bool :=
  s != "" && s.data.all isUnicodeLetterOrDigit

/-- Splits a character list at the first occurrence of c: the part before
    it, and the rest when c occurs at all. -/
def splitAtChar (c : Char) : List Char → List Char × Option (List Char)
  | [] => ([], none)
  | x :: xs =>
    if x = c then ([], some xs)
    else
      let r := splitAtChar c xs
      (x :: r.1, r.2)

/-- Modelled from the spec: valid email syntax (one at-sign separating a
    nonempty local part from a nonempty domain carrying an inner dot). The
    email tag is implemented by a regex inside the external go-playground
    library; only its value on the concrete addresses used in witnesses
    matters here. -/
def isEmailStr (s : String) : Bool :=
  match splitAtChar ('@') s.data with
  | (lpart, some rest) =>
    match splitAtChar ('@') rest with
    | (dpart, none) =>
        !lpart.isEmpty && !dpart.isEmpty && dpart.contains ('.') &&
          dpart.head? != some ('.') && dpart.getLast? != some ('.')
    | (_, some _) => false
  | (_, none) => false

/-- Character class of the custom department rule: the regex
    [\p{L}\p{N},.:;&# ]+ of part_003 (ASCII letter/digit fragment). -/
def isDeptChar (c : Char) : Bool :=
  c.isAlphanum || c == ',' || c == '.' || c == ':' || c == ';' ||
    c == '&' || c == '#' || c == ' '

/-- Whitespace test standing for strings.TrimSpace(value) == "" (true on
    the empty string; ASCII whitespace fragment). -/
def isWhitespaceOnly (s : String) : Bool :=
  s.data.all (fun c => c == ' ' || c == '\t' || c == '\n' || c == '\r')

/-- IsAlphanumUnicodeWithSpaces (part_003, lines 55-67): reject when the
    string trims to empty, otherwise match the regex. -/
def IsAlphanumUnicodeWithSpaces (value : String) : Bool :=
  if isWhitespaceOnly value then false
  else value.data.all isDeptChar

/-- First failing tag of a field, in tag order: go-playground reports the
    first violated tag per field and moves on to the next field. -/
def firstViolation (field : String) : List (String × Bool) → List (String × String)
  | [] => []
  | (tag, ok) :: rest => if ok then firstViolation field rest else [(field, tag)]

/-- validate:"required,min=4,max=255,alphanum" -/
def userNameErrors (p : UserCommon) : List (String × String) :=
  firstViolation ("UserName")
    [("required", p.userName != ""),
     ("min", decide (4 ≤ p.userName.length)),
     ("max", decide (p.userName.length ≤ 255)),
     ("alphanum", isAlphanumStr p.userName)]

/-- validate:"required,min=1,max=255,alphanumunicode" -/
def firstNameErrors (p : UserCommon) : List (String × String) :=
  firstViolation ("FirstName")
    [("required", p.firstName != ""),
     ("min", decide (1 ≤ p.firstName.length)),
     ("max", decide (p.firstName.length ≤ 255)),
     ("alphanumunicode", isAlphanumUnicodeStr p.firstName)]

/-- validate:"required,min=1,max=255,alphanumunicode" -/
def lastNameErrors (p : UserCommon) : List (String × String) :=
  firstViolation ("LastName")
    [("required", p.lastName != ""),
     ("min", decide (1 ≤ p.lastName.length)),
     ("max", decide (p.lastName.length ≤ 255)),
     ("alphanumunicode", isAlphanumUnicodeStr p.lastName)]

/-- validate:"required,max=255,email" -/
def emailErrors (p : UserCommon) : List (String × String) :=
  firstViolation ("Email")
    [("required", p.email != ""),
     ("max", decide (p.email.length ≤ 255)),
     ("email", isEmailStr p.email)]

/-- validate:"required,oneof=A I T" -/
def userStatusErrors (p : UserCommon) : List (String × String) :=
  firstViolation ("UserStatus")
    [("required", p.userStatus != ""),
     ("oneof", p.userStatus == "A" || p.userStatus == "I" || p.userStatus == "T")]

/-- validate:"omitempty,max=255,alphaNumUnicodeWithSpaces" — omitempty skips
    all checks on the empty string. -/
def departmentErrors (p : UserCommon) : List (String × String) :=
  if p.department == "" then []
  else
    firstViolation ("Department")
      [("max", decide (p.department.length ≤ 255)),
       ("alphaNumUnicodeWithSpaces", IsAlphanumUnicodeWithSpaces p.department)]

/-- Struct validation: every field checked independently, in struct field
    order, first violated tag per field (validator.Struct semantics for
    UserCommon). -/
def validateUserCommon (p : UserCommon) : List (String × String) :=
  userNameErrors p ++ firstNameErrors p ++ lastNameErrors p ++
    emailErrors p ++ userStatusErrors p ++ departmentErrors p

/-- Modelled rendering of validator.ValidationErrors.Error(): the per-field
    messages joined into one string (the library formats one line per field
    error; the exact wording is library-owned, the single-string shape is
    what matters). -/
def errMessage (e : String × String) : String :=
  "Field validation for " ++ e.1 ++ " failed on the " ++ e.2 ++ " tag"

/-- err.Error() of a ValidationErrors value: one string for the whole list. -/
def errsToString (errs : List (String × String)) : String :=
  String.intercalate ("; ") (errs.map errMessage)

deriving instance DecidableEq for Except

/-! ## Repository (src/unnamed/part_003, package repository) -/

/-- UserRepository: the Go interface, generic over the backing state σ
    (the Go service talks to a *bun.DB; the service is generic in the
    interface). Errors are message strings. -/
structure UserRepository (σ : Type) where
  list : σ → Except String (List User)
  getByID : σ → Int → Except String User
  create : σ → User → Except String (σ × User)
  update : σ → User → Except String σ
  delete : σ → Int → Except String σ
  existsByUserName : σ → String → Except String Bool
  existsByEmail : σ → String → Int → Except String Bool

/-- Raw store error surfaced by the Postgres driver on a unique-constraint
    violation (SQLSTATE 23505, constraint users_email_unique of part_024);
    passed through verbatim by the repository methods. -/
def pgUniqueViolation : String :=
  "ERROR: duplicate key value violates unique constraint users_email_unique (SQLSTATE 23505)"

/-- Db: the users table (part_024). rows carries the table content, nextId
    the serial user_id sequence (starts at 1). -/
structure Db where
  rows : List User
  nextId : Int
deriving DecidableEq, Repr

def initialDb : Db := { rows := [], nextId := 1 }

/-- SELECT ... WHERE user_id = ? (bun Scan: sql.ErrNoRows when absent). -/
def dbGetByID (db : Db) (id : Int) : Except String User :=
  match db.rows.find? (fun r => r.userID == id) with
  | some u => .ok u
  | none => .error "sql: no rows in result set"

/-- SELECT EXISTS WHERE user_name = ? (no DB-level exclusion, part_003). -/
def dbExistsByUserName (db : Db) (userName : String) : Bool :=
  db.rows.any (fun r => r.userName == userName)

/-- SELECT EXISTS WHERE email = ? [AND user_id != excludeID when
    excludeID != 0] (part_003, lines 208-218). -/
def dbExistsByEmail (db : Db) (email : String) (excludeID : Int) : Bool :=
  if excludeID == 0 then
    db.rows.any (fun r => r.email == email)
  else
    db.rows.any (fun r => r.email == email && r.userID != excludeID)

/-- INSERT: the table enforces UNIQUE(email) (part_024) — user_name has no
    unique constraint at the store level; serial assigns the next user_id,
    bun writes it back into the model. -/
def dbCreate (db : Db) (user : User) : Except String (Db × User) :=
  if db.rows.any (fun r => r.email == user.email) then
    .error pgUniqueViolation
  else
    let u := { user with userID := db.nextId }
    .ok ({ rows := db.rows ++ [u], nextId := db.nextId + 1 }, u)

/-- UPDATE ... WHERE user_id = pk: replaces the matching row; UNIQUE(email)
    still guards against another row holding the new email. -/
def dbUpdate (db : Db) (user : User) : Except String Db :=
  if db.rows.any (fun r => r.userID != user.userID && r.email == user.email) then
    .error pgUniqueViolation
  else
    .ok { db with rows := db.rows.map (fun r => if r.userID == user.userID then user else r) }

/-- DELETE ... WHERE user_id = ?: unconditional, zero rows affected is not
    an error. -/
def dbDelete (db : Db) (id : Int) : Except String Db :=
  .ok { db with rows := db.rows.filter (fun r => r.userID != id) }

/-- userRepository: the concrete repository over the users table (the rows
    list is maintained in ascending user_id order, so List needs no sort). -/
def userRepository : UserRepository Db where
  list := fun db => .ok db.rows
  getByID := dbGetByID
  create := dbCreate
  update := dbUpdate
  delete := dbDelete
  existsByUserName := fun db n => .ok (dbExistsByUserName db n)
  existsByEmail := fun db e ex => .ok (dbExistsByEmail db e ex)

/-! ## Service (src/backend/internal/service/user_service.go) -/

/-- The entity built by CreateUser before persisting: UserID is the Go zero
    value, CreatedAt/UpdatedAt are the two successive time.Now() calls. -/
def mkNewUser (req : UserCommon) (t1 t2 : Nat) : User :=
  { toUserCommon := req, userID := 0, createdAt := t1, updatedAt := t2 }

/-- userService.CreateUser: username existence check, then email existence
    check (excludeID 0), then the status-enum check, then persist. Every
    repository error is returned to the caller unchanged. -/
def createUser {σ : Type} (repo : UserRepository σ) (s : σ) (req : UserCreateRequest)
    (t1 t2 : Nat) : Except String (σ × User) :=
  match repo.existsByUserName s req.userName with
  | .error e => .error e
  | .ok true => .error "username already exists"
  | .ok false =>
    match repo.existsByEmail s req.email 0 with
    | .error e => .error e
    | .ok true => .error "email already exists"
    | .ok false =>
      if req.userStatus != UserStatusActive && req.userStatus != UserStatusInactive &&
          req.userStatus != UserStatusTerminated then
        .error "invalid user status"
      else
        repo.create s (mkNewUser req t1 t2)

/-- The field assignments of UpdateUser (user_service.go lines 116-122):
    every mutable field overwritten from the request, UpdatedAt refreshed,
    UserID and CreatedAt untouched. -/
def applyUpdate (user : User) (req : UserCommon) (now : Nat) : User :=
  { user with
      userName := req.userName,
      firstName := req.firstName,
      lastName := req.lastName,
      email := req.email,
      userStatus := req.userStatus,
      department := req.department,
      updatedAt := now }

/-- userService.UpdateUser: load by id, check username uniqueness only when
    the username changes, check email uniqueness (excluding the subject)
    only when the email changes, check the status enum, overwrite every
    mutable field, refresh UpdatedAt, persist. -/
def updateUser {σ : Type} (repo : UserRepository σ) (s : σ) (id : Int)
    (req : UserUpdateRequest) (now : Nat) : Except String (σ × User) :=
  match repo.getByID s id with
  | .error e => .error e
  | .ok user =>
    match (if user.userName != req.userName then repo.existsByUserName s req.userName
           else .ok false) with
    | .error e => .error e
    | .ok true => .error "username already exists"
    | .ok false =>
      match (if user.email != req.email then repo.existsByEmail s req.email id
             else .ok false) with
      | .error e => .error e
      | .ok true => .error "email already exists"
      | .ok false =>
        if req.userStatus != UserStatusActive && req.userStatus != UserStatusInactive &&
            req.userStatus != UserStatusTerminated then
          .error "invalid user status"
        else
          let user' := applyUpdate user req now
          match repo.update s user' with
          | .error e => .error e
          | .ok s' => .ok (s', user')

/-- userService.GetUser: a pass-through to the repository. -/
def getUser {σ : Type} (repo : UserRepository σ) (s : σ) (id : Int) : Except String User :=
  repo.getByID s id

/-- userService.ListUsers: a pass-through to the repository. -/
def listUsers {σ : Type} (repo : UserRepository σ) (s : σ) : Except String (List User) :=
  repo.list s

/-- userService.DeleteUser: a pass-through to the repository. -/
def deleteUser {σ : Type} (repo : UserRepository σ) (s : σ) (id : Int) : Except String σ :=
  repo.delete s id

/-- The service instantiated at the concrete repository, create path. -/
def svcCreateUser (db : Db) (req : UserCreateRequest) (t1 t2 : Nat) :
    Except String (Db × User) :=
  createUser userRepository db req t1 t2

/-- The service instantiated at the concrete repository, update path. -/
def svcUpdateUser (db : Db) (id : Int) (req : UserUpdateRequest) (now : Nat) :
    Except String (Db × User) :=
  updateUser userRepository db id req now

/-- The service instantiated at the concrete repository, get path. -/
def svcGetUser (db : Db) (id : Int) : Except String User :=
  getUser userRepository db id

/-! ## HTTP handlers (src/backend/Makefile, lines 56-210, package api) -/

/-- The handler outcomes, by status code; every error body is the single
    map[string]string entry under the error key. -/
inductive HandlerResponse where
  | created (user : User)
  | okUser (user : User)
  | badRequest (msg : String)
  | unprocessable (msg : String)
  | notFound (msg : String)
deriving DecidableEq, Repr

/-- UserHandler.CreateUser: bind (payloads arrive already typed here),
    c.Validate — a non-nil validation error is serialized with err.Error()
    into a 422 — then the service; any service error becomes a 400 carrying
    the raw message; success is a 201. -/
def handleCreateUser {σ : Type} (repo : UserRepository σ) (s : σ)
    (req : UserCreateRequest) (t1 t2 : Nat) : σ × HandlerResponse :=
  match validateUserCommon req with
  | [] =>
    match createUser repo s req t1 t2 with
    | .ok (s', user) => (s', .created user)
    | .error e => (s, .badRequest e)
  | errs => (s, .unprocessable (errsToString errs))

/-- UserHandler.UpdateUser: validate, then the service; the three known
    service messages map to 400, every other service error maps to a 404
    with body user not found; success is a 200. -/
def handleUpdateUser {σ : Type} (repo : UserRepository σ) (s : σ) (id : Int)
    (req : UserUpdateRequest) (now : Nat) : σ × HandlerResponse :=
  match validateUserCommon req with
  | [] =>
    match updateUser repo s id req now with
    | .ok (s', user) => (s', .okUser user)
    | .error e =>
      if e == "username already exists" || e == "email already exists" ||
          e == "invalid user status" then
        (s, .badRequest e)
      else
        (s, .notFound "user not found")
  | errs => (s, .unprocessable (errsToString errs))

/-! ## Traces of service operations -/

/-- One service-level write operation, carrying the time.Now() values the Go
    code would observe while executing it. -/
inductive Op where
  | create (req : UserCommon) (t1 t2 : Nat)
  | update (id : Int) (req : UserCommon) (t : Nat)

/-- Effect of one operation on the store: the post-state on success, the
    unchanged store when the service rejects. -/
def runOp (db : Db) : Op → Db
  | .create req t1 t2 =>
    match svcCreateUser db req t1 t2 with
    | .ok (db', _) => db'
    | .error _ => db
  | .update id req t =>
    match svcUpdateUser db id req t with
    | .ok (db', _) => db'
    | .error _ => db

/-- Store reached from the empty table by a sequence of operations. -/
def runOps (ops : List Op) : Db :=
  ops.foldl runOp initialDb

/-- Timestamps along a trace are produced by a monotonic clock (Go
    time.Now()): each observed time is at least the clock floor, and within
    one create the second Now() call is not before the first. -/
def opsWellTimed : Nat → List Op → Prop
  | _, [] => True
  | c, Op.create _ t1 t2 :: rest => c ≤ t1 ∧ t1 ≤ t2 ∧ opsWellTimed t2 rest
  | c, Op.update _ _ t :: rest => c ≤ t ∧ opsWellTimed t rest

/-! ## Store invariants -/

/-- Well-formedness of the users table maintained by the service. -/
structure DbInv (db : Db) : Prop where
  names : db.rows.Pairwise (fun a b => a.userName ≠ b.userName)
  emails : db.rows.Pairwise (fun a b => a.email ≠ b.email)
  ids : db.rows.Pairwise (fun a b => a.userID ≠ b.userID)
  bound : ∀ u ∈ db.rows, 0 < u.userID ∧ u.userID < db.nextId
  posNext : 0 < db.nextId

/-- Timestamp sanity relative to the current clock floor c. -/
def timesOk (c : Nat) (db : Db) : Prop :=
  ∀ u ∈ db.rows, u.createdAt ≤ u.updatedAt ∧ u.updatedAt ≤ c

/-! ## Normal forms of the service over the concrete repository -/

/-- The row actually inserted by the create path: the request fields with
    the serial id and the two observed timestamps. -/
def createdUser (req : UserCommon) (idv : Int) (t1 t2 : Nat) : User :=
  { toUserCommon := req, userID := idv, createdAt := t1, updatedAt := t2 }

/-! ## Concrete fixtures used by witnesses and counterexamples -/

def pJohn : UserCommon :=
  { userName := "johndoe", firstName := "John", lastName := "Doe",
    email := "john@doe.com", userStatus := "A", department := "IT" }

def pJane : UserCommon :=
  { userName := "janedoe", firstName := "Jane", lastName := "Doe",
    email := "jane@doe.com", userStatus := "A", department := "HR" }

def opsW : List Op := [Op.create pJohn 1 1, Op.create pJane 2 2]

/-- A store holding John (user_id 1) and Jane (user_id 2). -/
def dbW : Db :=
  { rows := [createdUser pJohn 1 1 1, createdUser pJane 2 2 2], nextId := 3 }

/-- A payload carrying values that violate every format rule of the
    Validator (username too short and non-alphanumeric, empty firstName,
    malformed email, whitespace-only department) while keeping a legal
    status code. -/
def pBad : UserCommon :=
  { userName := "x!", firstName := "", lastName := "D e",
    email := "not-an-email", userStatus := "A", department := "   " }

/-- A second rule-violating payload for the update path. -/
def pBad2 : UserCommon :=
  { userName := "y?", firstName := "9 9", lastName := "",
    email := "also not an email", userStatus := "I", department := " . " }

/-- A payload with two invalid fields (short username, missing first name)
    and everything else legal. -/
def pTwoBad : UserCommon :=
  { userName := "abc", firstName := "", lastName := "Doe",
    email := "john@doe.com", userStatus := "A", department := "IT" }

/-- A payload valid except for its three-character username. -/
def pAbc : UserCommon :=
  { userName := "abc", firstName := "John", lastName := "Doe",
    email := "john@doe.com", userStatus := "A", department := "IT" }

/-- A payload valid except for its empty username. -/
def pEmptyName : UserCommon :=
  { userName := "", firstName := "John", lastName := "Doe",
    email := "john@doe.com", userStatus := "A", department := "IT" }

/-- A payload valid except for its whitespace-only department. -/
def pWS : UserCommon :=
  { userName := "johndoe", firstName := "John", lastName := "Doe",
    email := "john@doe.com", userStatus := "A", department := "   " }

/-- A fully valid payload with an empty department. -/
def pNoDept : UserCommon :=
  { userName := "johndoe", firstName := "John", lastName := "Doe",
    email := "john@doe.com", userStatus := "A", department := "" }

/-- A create payload whose username and email are both taken in dbW. -/
def reqC3 : UserCommon :=
  { userName := "janedoe", firstName := "Mallory", lastName := "Intruder",
    email := "john@doe.com", userStatus := "A", department := "IT" }

/-- An update payload for John whose username and email are both taken by
    Jane. -/
def reqC3u : UserCommon :=
  { userName := "janedoe", firstName := "John", lastName := "Doe",
    email := "jane@doe.com", userStatus := "A", department := "IT" }

/-- An update payload for John carrying his current email and username and
    a changed department. -/
def reqC4 : UserCommon :=
  { userName := "johndoe", firstName := "John", lastName := "Doe",
    email := "john@doe.com", userStatus := "A", department := "HR" }

/-- An update payload replacing every mutable field of John. -/
def reqC7 : UserCommon :=
  { userName := "johnny99", firstName := "Johnny", lastName := "Dough",
    email := "johnny@doe.com", userStatus := "I", department := "OPS" }

/-- The row John becomes after Update(1, reqC7) at time 9. -/
def uC7 : User := applyUpdate (createdUser pJohn 1 1 1) reqC7 9

/-- The store dbW after Update(1, reqC7) at time 9. -/
def dbC7 : Db := { rows := [uC7, createdUser pJane 2 2 2], nextId := 3 }

/-- A repository caught in the check-then-act race window: both existence
    pre-checks observe no duplicate, a concurrent writer then claims the
    value, and the store surfaces the unique-constraint violation at
    insert/update time. -/
def racyRepo : UserRepository Unit where
  list := fun _ => .ok []
  getByID := fun _ _ => .ok (createdUser pJohn 1 1 1)
  create := fun _ _ => .error pgUniqueViolation
  update := fun _ _ => .error pgUniqueViolation
  delete := fun _ _ => .ok ()
  existsByUserName := fun _ _ => .ok false
  existsByEmail := fun _ _ _ => .ok false

/-- Create path, fully unfolded over the in-memory table. -/
theorem svcCreateUser_eq (db : Db) (req : UserCreateRequest) (t1 t2 : Nat) :
    svcCreateUser db req t1 t2 =
      if db.rows.any (fun r => r.userName == req.userName) then
        .error "username already exists"
      else if db.rows.any (fun r => r.email == req.email) then
        .error "email already exists"
      else if req.userStatus != UserStatusActive && req.userStatus != UserStatusInactive &&
          req.userStatus != UserStatusTerminated then
        .error "invalid user status"
      else
        .ok ({ rows := db.rows ++ [createdUser req db.nextId t1 t2], nextId := db.nextId + 1 },
             createdUser req db.nextId t1 t2) := by
  simp only [svcCreateUser, createUser, userRepository, dbExistsByUserName, dbExistsByEmail,
    dbCreate, mkNewUser, createdUser]
  cases h1 : db.rows.any (fun r => r.userName == req.userName) <;>
    cases h2 : db.rows.any (fun r => r.email == req.email) <;>
      simp [h1, h2]

/-- Update path, fully unfolded over the in-memory table. -/
theorem svcUpdateUser_eq (db : Db) (id : Int) (req : UserUpdateRequest) (now : Nat) :
    svcUpdateUser db id req now =
      match db.rows.find? (fun r => r.userID == id) with
      | none => .error "sql: no rows in result set"
      | some user =>
        if user.userName != req.userName &&
            db.rows.any (fun r => r.userName == req.userName) then
          .error "username already exists"
        else if user.email != req.email && dbExistsByEmail db req.email id then
          .error "email already exists"
        else if req.userStatus != UserStatusActive && req.userStatus != UserStatusInactive &&
            req.userStatus != UserStatusTerminated then
          .error "invalid user status"
        else if db.rows.any (fun r => r.userID != user.userID && r.email == req.email) then
          .error pgUniqueViolation
        else
          .ok ({ db with rows := db.rows.map (fun r =>
                   if r.userID == user.userID then applyUpdate user req now else r) },
               applyUpdate user req now) := by
  simp only [svcUpdateUser, updateUser, userRepository, dbGetByID, dbUpdate]
  cases hf : db.rows.find? (fun r => r.userID == id) with
  | none => simp
  | some user =>
    cases h1 : user.userName != req.userName <;>
    cases h2 : user.email != req.email <;>
    cases h3 : db.rows.any (fun r => r.userName == req.userName) <;>
    cases h4 : dbExistsByEmail db req.email id <;>
    cases h5 : req.userStatus != UserStatusActive && req.userStatus != UserStatusInactive &&
      req.userStatus != UserStatusTerminated <;>
    cases h6 : db.rows.any (fun r => r.userID != user.userID && r.email == req.email) <;>
      simp [h1, h2, h3, h4, h5, h6, applyUpdate, dbExistsByUserName]

/-- Update path when the subject row exists. -/
theorem svcUpdateUser_eq_some {db : Db} {id : Int} {user : User}
    (req : UserUpdateRequest) (now : Nat)
    (hf : db.rows.find? (fun r => r.userID == id) = some user) :
    svcUpdateUser db id req now =
      (if user.userName != req.userName &&
          db.rows.any (fun r => r.userName == req.userName) then
        .error "username already exists"
      else if user.email != req.email && dbExistsByEmail db req.email id then
        .error "email already exists"
      else if req.userStatus != UserStatusActive && req.userStatus != UserStatusInactive &&
          req.userStatus != UserStatusTerminated then
        .error "invalid user status"
      else if db.rows.any (fun r => r.userID != user.userID && r.email == req.email) then
        .error pgUniqueViolation
      else
        .ok ({ db with rows := db.rows.map (fun r =>
                 if r.userID == user.userID then applyUpdate user req now else r) },
             applyUpdate user req now)) := by
  rw [svcUpdateUser_eq, hf]

/-! ## Helper lemmas -/

theorem dbGetByID_ok {db : Db} {id : Int} {u : User} (h : dbGetByID db id = .ok u) :
    u ∈ db.rows ∧ u.userID = id := by
  simp only [dbGetByID] at h
  cases hf : db.rows.find? (fun r => r.userID == id) with
  | none => simp [hf] at h
  | some v =>
    simp only [hf] at h
    cases h
    refine ⟨List.mem_of_find?_eq_some hf, ?_⟩
    have hp := List.find?_some hf
    simpa using hp

theorem mem_eq_of_id {l : List User}
    (hids : l.Pairwise (fun a b => a.userID ≠ b.userID))
    {a b : User} (ha : a ∈ l) (hb : b ∈ l) (hid : a.userID = b.userID) : a = b := by
  by_contra hne
  exact (hids.forall (fun _ _ h => h.symm) ha hb hne) hid

/-- The create path preserves the table well-formedness. -/
theorem DbInv_create {db : Db} {req : UserCreateRequest} {t1 t2 : Nat} {db' : Db} {u : User}
    (inv : DbInv db) (h : svcCreateUser db req t1 t2 = .ok (db', u)) : DbInv db' := by
  rw [svcCreateUser_eq] at h
  split_ifs at h with h1 h2 h3
  simp only [Except.ok.injEq, Prod.mk.injEq] at h
  obtain ⟨hdb, hu⟩ := h
  subst hdb
  subst hu
  have hname : ∀ r ∈ db.rows, ¬ r.userName = req.userName := by
    simpa using h1
  have hemail : ∀ r ∈ db.rows, ¬ r.email = req.email := by
    simpa using h2
  refine ⟨?_, ?_, ?_, ?_, ?_⟩
  · rw [List.pairwise_append]
    refine ⟨inv.names, by simp, ?_⟩
    intro a ha b hb
    simp only [List.mem_singleton] at hb
    subst hb
    simpa [createdUser] using hname a ha
  · rw [List.pairwise_append]
    refine ⟨inv.emails, by simp, ?_⟩
    intro a ha b hb
    simp only [List.mem_singleton] at hb
    subst hb
    simpa [createdUser] using hemail a ha
  · rw [List.pairwise_append]
    refine ⟨inv.ids, by simp, ?_⟩
    intro a ha b hb
    simp only [List.mem_singleton] at hb
    subst hb
    simp only [createdUser]
    exact Int.ne_of_lt (inv.bound a ha).2
  · intro x hx
    rcases List.mem_append.mp hx with hx2 | hx2
    · have hb := inv.bound x hx2
      refine ⟨hb.1, ?_⟩
      dsimp only
      omega
    · simp only [List.mem_singleton] at hx2
      subst hx2
      refine ⟨inv.posNext, ?_⟩
      dsimp only [createdUser]
      omega
  · have := inv.posNext
    dsimp only
    omega

/-- The update path preserves the table well-formedness. -/
theorem DbInv_update {db : Db} {id : Int} {req : UserUpdateRequest} {now : Nat}
    {db' : Db} {u' : User}
    (inv : DbInv db) (h : svcUpdateUser db id req now = .ok (db', u')) : DbInv db' := by
  cases hf : db.rows.find? (fun r => r.userID == id) with
  | none =>
    rw [svcUpdateUser_eq, hf] at h
    simp at h
  | some user =>
    rw [svcUpdateUser_eq_some req now hf] at h
    have huser : user ∈ db.rows := List.mem_of_find?_eq_some hf
    split_ifs at h with h1 h2 h3 h4
    simp only [Except.ok.injEq, Prod.mk.injEq] at h
    obtain ⟨hdb, hu⟩ := h
    subst hdb
    subst hu
    have hname : ¬ user.userName = req.userName → ∀ x ∈ db.rows, ¬ x.userName = req.userName := by
      simpa using h1
    have hemail : ∀ x ∈ db.rows, ¬ x.userID = user.userID → ¬ x.email = req.email := by
      simpa using h4
    have hfid : ∀ r : User,
        (if r.userID == user.userID then applyUpdate user req now else r).userID = r.userID := by
      intro r
      by_cases hr : r.userID = user.userID <;> simp [hr, applyUpdate]
    refine ⟨?_, ?_, ?_, ?_, ?_⟩
    · rw [List.pairwise_map]
      refine (inv.names.and inv.ids).imp_of_mem ?_
      intro a b ha hb hab
      obtain ⟨hn, hi⟩ := hab
      by_cases hA : a.userID = user.userID <;> by_cases hB : b.userID = user.userID
      · exact absurd (hA.trans hB.symm) hi
      · have ha_user : a = user := mem_eq_of_id inv.ids ha huser hA
        by_cases hch : user.userName = req.userName
        · simpa [hA, hB, applyUpdate, ← hch, ← ha_user] using hn
        · simpa [hA, hB, applyUpdate] using fun hc => (hname hch b hb) hc.symm
      · have hb_user : b = user := mem_eq_of_id inv.ids hb huser hB
        by_cases hch : user.userName = req.userName
        · simpa [hA, hB, applyUpdate, ← hch, ← hb_user] using hn
        · simpa [hA, hB, applyUpdate] using hname hch a ha
      · simpa [hA, hB] using hn
    · rw [List.pairwise_map]
      refine (inv.emails.and inv.ids).imp_of_mem ?_
      intro a b ha hb hab
      obtain ⟨he, hi⟩ := hab
      by_cases hA : a.userID = user.userID <;> by_cases hB : b.userID = user.userID
      · exact absurd (hA.trans hB.symm) hi
      · have : ¬ b.email = req.email := hemail b hb (fun hc => hB hc)
        simpa [hA, hB, applyUpdate] using fun hc => this hc.symm
      · have : ¬ a.email = req.email := hemail a ha (fun hc => hA hc)
        simpa [hA, hB, applyUpdate] using this
      · simpa [hA, hB] using he
    · rw [List.pairwise_map]
      refine inv.ids.imp_of_mem ?_
      intro a b _ _ hab
      by_cases hA : a.userID = user.userID <;> by_cases hB : b.userID = user.userID
      · exact absurd (hA.trans hB.symm) hab
      · rw [hA] at hab
        simp [hA, hB, applyUpdate, hab]
      · rw [hB] at hab
        simp [hA, hB, applyUpdate, hab]
      · simpa [hA, hB] using hab
    · intro x hx
      obtain ⟨r, hr, hxr⟩ := List.mem_map.mp hx
      rw [← hxr]
      by_cases hrid : r.userID = user.userID
      · simpa [hrid, applyUpdate] using inv.bound user huser
      · simpa [hrid] using inv.bound r hr
    · simpa using inv.posNext

/-- Well-formedness holds for the empty table. -/
theorem DbInv_initial : DbInv initialDb := by
  refine ⟨?_, ?_, ?_, ?_, ?_⟩ <;> simp [initialDb]

/-- One accepted-or-rejected operation preserves well-formedness. -/
theorem DbInv_runOp {db : Db} (inv : DbInv db) (op : Op) : DbInv (runOp db op) := by
  cases op with
  | create req t1 t2 =>
    simp only [runOp]
    split
    · rename_i db' u h
      exact DbInv_create inv h
    · exact inv
  | update id req t =>
    simp only [runOp]
    split
    · rename_i db' u h
      exact DbInv_update inv h
    · exact inv

theorem DbInv_foldl : ∀ (ops : List Op) (db : Db), DbInv db → DbInv (ops.foldl runOp db)
  | [], _, inv => inv
  | op :: rest, db, inv => DbInv_foldl rest (runOp db op) (DbInv_runOp inv op)

/-! ## Timestamp invariant machinery -/

theorem timesOk_mono {c c' : Nat} {db : Db} (hcc : c ≤ c') (h : timesOk c db) :
    timesOk c' db := by
  intro u hu
  exact ⟨(h u hu).1, le_trans (h u hu).2 hcc⟩

theorem timesOk_create {db db' : Db} {req : UserCreateRequest} {t1 t2 c : Nat} {u : User}
    (h : timesOk c db) (hc : c ≤ t1) (ht : t1 ≤ t2)
    (hok : svcCreateUser db req t1 t2 = .ok (db', u)) : timesOk t2 db' := by
  rw [svcCreateUser_eq] at hok
  split_ifs at hok
  simp only [Except.ok.injEq, Prod.mk.injEq] at hok
  obtain ⟨hdb, _⟩ := hok
  subst hdb
  intro x hx
  rcases List.mem_append.mp hx with hx2 | hx2
  · exact ⟨(h x hx2).1, le_trans (h x hx2).2 (le_trans hc ht)⟩
  · simp only [List.mem_singleton] at hx2
    subst hx2
    exact ⟨ht, le_refl t2⟩

theorem timesOk_update {db db' : Db} {id : Int} {req : UserUpdateRequest} {t c : Nat} {u' : User}
    (h : timesOk c db) (hc : c ≤ t)
    (hok : svcUpdateUser db id req t = .ok (db', u')) : timesOk t db' := by
  cases hf : db.rows.find? (fun r => r.userID == id) with
  | none =>
    rw [svcUpdateUser_eq, hf] at hok
    simp at hok
  | some user =>
    rw [svcUpdateUser_eq_some req t hf] at hok
    have huser : user ∈ db.rows := List.mem_of_find?_eq_some hf
    split_ifs at hok
    simp only [Except.ok.injEq, Prod.mk.injEq] at hok
    obtain ⟨hdb, _⟩ := hok
    subst hdb
    intro x hx
    obtain ⟨r, hr, hxr⟩ := List.mem_map.mp hx
    rw [← hxr]
    by_cases hrid : r.userID = user.userID
    · have hu := h user huser
      constructor
      · simp only [hrid, applyUpdate]
        simp
        exact le_trans hu.1 (le_trans hu.2 hc)
      · simp only [hrid, applyUpdate]
        simp
    · have hrb := h r hr
      constructor
      · simp [hrid]
        exact hrb.1
      · simp [hrid]
        exact le_trans hrb.2 hc

theorem timesOk_foldl : ∀ (ops : List Op) (c : Nat) (db : Db), timesOk c db →
    opsWellTimed c ops → ∀ u ∈ (ops.foldl runOp db).rows, u.createdAt ≤ u.updatedAt
  | [], c, db, h, _ => fun u hu => (h u hu).1
  | Op.create req t1 t2 :: rest, c, db, h, hw => by
    obtain ⟨hc, ht, hrest⟩ := hw
    simp only [List.foldl_cons]
    have hstep : timesOk t2 (runOp db (Op.create req t1 t2)) := by
      simp only [runOp]
      split
      · rename_i db' u hop
        exact timesOk_create h hc ht hop
      · exact timesOk_mono (le_trans hc ht) h
    exact timesOk_foldl rest t2 _ hstep hrest
  | Op.update id req t :: rest, c, db, h, hw => by
    obtain ⟨hc, hrest⟩ := hw
    simp only [List.foldl_cons]
    have hstep : timesOk t (runOp db (Op.update id req t)) := by
      simp only [runOp]
      split
      · rename_i db' u hop
        exact timesOk_update h hc hop
      · exact timesOk_mono hc h
    exact timesOk_foldl rest t _ hstep hrest

theorem dbGetByID_ok_find {db : Db} {id : Int} {u : User} (h : dbGetByID db id = .ok u) :
    db.rows.find? (fun r => r.userID == id) = some u := by
  simp only [dbGetByID] at h
  cases hf : db.rows.find? (fun r => r.userID == id) with
  | none => simp [hf] at h
  | some v =>
    simp only [hf] at h
    cases h
    rfl

/-- The create path succeeds whenever both pre-checks are clear and the
    status code is one of the three legal literals. -/
theorem svcCreateUser_success {db : Db} {req : UserCreateRequest} {t1 t2 : Nat}
    (h1 : dbExistsByUserName db req.userName = false)
    (h2 : dbExistsByEmail db req.email 0 = false)
    (h3 : req.userStatus = "A" ∨ req.userStatus = "I" ∨ req.userStatus = "T") :
    svcCreateUser db req t1 t2 =
      .ok ({ rows := db.rows ++ [createdUser req db.nextId t1 t2], nextId := db.nextId + 1 },
           createdUser req db.nextId t1 t2) := by
  rw [svcCreateUser_eq]
  have hb1 : (db.rows.any fun r => r.userName == req.userName) = false := h1
  have hb2 : (db.rows.any fun r => r.email == req.email) = false := by
    simpa [dbExistsByEmail] using h2
  rcases h3 with h3 | h3 | h3 <;>
    simp [hb1, hb2, h3, UserStatusActive, UserStatusInactive, UserStatusTerminated]

/-- The update path succeeds whenever the subject exists, the username
    guard is clear, the email guard is clear, no other row holds the new
    email, and the status code is legal. -/
theorem svcUpdateUser_success {db : Db} {id : Int} {req : UserUpdateRequest} {now : Nat}
    {user : User}
    (hf : db.rows.find? (fun r => r.userID == id) = some user)
    (hn : user.userName = req.userName ∨ dbExistsByUserName db req.userName = false)
    (he : user.email = req.email ∨ dbExistsByEmail db req.email id = false)
    (hother : ∀ r ∈ db.rows, r.userID ≠ user.userID → r.email ≠ req.email)
    (hs : req.userStatus = "A" ∨ req.userStatus = "I" ∨ req.userStatus = "T") :
    svcUpdateUser db id req now =
      .ok ({ db with rows := db.rows.map (fun r =>
               if r.userID == user.userID then applyUpdate user req now else r) },
           applyUpdate user req now) := by
  rw [svcUpdateUser_eq_some req now hf]
  have hc1 : (user.userName != req.userName &&
      db.rows.any (fun r => r.userName == req.userName)) = false := by
    rcases hn with hn | hn
    · simp [hn]
    · have hn' : (db.rows.any fun r => r.userName == req.userName) = false := hn
      simp [hn']
  have hc2 : (user.email != req.email && dbExistsByEmail db req.email id) = false := by
    rcases he with he | he
    · simp [he]
    · simp [he]
  have hc4 : (db.rows.any fun r => r.userID != user.userID && r.email == req.email) = false := by
    simp only [List.any_eq_false]
    intro r hr
    by_cases hrid : r.userID = user.userID
    · simp [hrid]
    · simp [hrid, hother r hr hrid]
  rcases hs with hs | hs | hs <;>
    simp [hc1, hc2, hc4, hs, UserStatusActive, UserStatusInactive, UserStatusTerminated]

/-- Looking up the subject id after the row replacement of the update path
    finds exactly the updated row. -/
theorem find?_map_update {rows : List User} {id : Int} {user : User} (u' : User)
    (hf : rows.find? (fun r => r.userID == id) = some user)
    (hid : u'.userID = user.userID) :
    (rows.map (fun r => if r.userID == user.userID then u' else r)).find?
      (fun r => r.userID == id) = some u' := by
  have huid : user.userID = id := by
    have := List.find?_some hf
    simpa using this
  have hpf : ((fun r : User => r.userID == id) ∘
      (fun r => if r.userID == user.userID then u' else r)) =
      fun r : User => r.userID == id := by
    funext r
    by_cases hr : r.userID = user.userID
    · simp [hr, hid, huid]
    · simp [hr]
  rw [List.find?_map, hpf, hf]
  simp [hid]

/-- A non-empty validation result short-circuits UserHandler.CreateUser
    into the 422 branch: the state is untouched and the body is the
    err.Error() string. -/
theorem handleCreateUser_invalid {σ : Type} (repo : UserRepository σ) (s : σ)
    (p : UserCreateRequest) (t1 t2 : Nat) (h : validateUserCommon p ≠ []) :
    handleCreateUser repo s p t1 t2 = (s, .unprocessable (errsToString (validateUserCommon p))) := by
  cases hv : validateUserCommon p with
  | nil => exact absurd hv h
  | cons a rest => simp [handleCreateUser, hv]

/-! ## Validator structure lemmas -/

theorem mem_firstViolation {f : String} {cs : List (String × Bool)} {x : String × String}
    (h : x ∈ firstViolation f cs) : x.1 = f := by
  induction cs with
  | nil => simp [firstViolation] at h
  | cons c rest ih =>
    obtain ⟨tag, ok⟩ := c
    simp only [firstViolation] at h
    cases hok : ok with
    | true =>
      rw [hok] at h
      simp only [if_true] at h
      exact ih h
    | false =>
      rw [hok] at h
      simp at h
      rw [h]

theorem firstViolation_shape (f : String) (cs : List (String × Bool)) :
    firstViolation f cs = [] ∨ ∃ t, firstViolation f cs = [(f, t)] := by
  induction cs with
  | nil => exact Or.inl rfl
  | cons c rest ih =>
    obtain ⟨tag, ok⟩ := c
    cases hok : ok with
    | false => exact Or.inr ⟨tag, by simp [firstViolation, hok]⟩
    | true =>
      rcases ih with h | ⟨t, h⟩
      · exact Or.inl (by simp [firstViolation, hok, h])
      · exact Or.inr ⟨t, by simp [firstViolation, hok, h]⟩

theorem userNameErrors_shape (p : UserCommon) :
    userNameErrors p = [] ∨ ∃ t, userNameErrors p = [("UserName", t)] :=
  firstViolation_shape _ _

theorem firstNameErrors_shape (p : UserCommon) :
    firstNameErrors p = [] ∨ ∃ t, firstNameErrors p = [("FirstName", t)] :=
  firstViolation_shape _ _

theorem lastNameErrors_shape (p : UserCommon) :
    lastNameErrors p = [] ∨ ∃ t, lastNameErrors p = [("LastName", t)] :=
  firstViolation_shape _ _

theorem emailErrors_shape (p : UserCommon) :
    emailErrors p = [] ∨ ∃ t, emailErrors p = [("Email", t)] :=
  firstViolation_shape _ _

theorem userStatusErrors_shape (p : UserCommon) :
    userStatusErrors p = [] ∨ ∃ t, userStatusErrors p = [("UserStatus", t)] :=
  firstViolation_shape _ _

theorem departmentErrors_shape (p : UserCommon) :
    departmentErrors p = [] ∨ ∃ t, departmentErrors p = [("Department", t)] := by
  by_cases hd : (p.department == "") = true
  · exact Or.inl (by simp [departmentErrors, hd])
  · have hd' : (p.department == "") = false := by simpa using hd
    rcases firstViolation_shape ("Department")
        [("max", decide (p.department.length ≤ 255)),
         ("alphaNumUnicodeWithSpaces", IsAlphanumUnicodeWithSpaces p.department)] with h | ⟨t, h⟩
    · exact Or.inl (by simp [departmentErrors, hd', h])
    · exact Or.inr ⟨t, by simp [departmentErrors, hd', h]⟩

theorem mem_departmentErrors {p : UserCommon} {x : String × String}
    (h : x ∈ departmentErrors p) : x.1 = "Department" := by
  simp only [departmentErrors] at h
  by_cases hd : (p.department == "") = true
  · simp [hd] at h
  · have hd' : (p.department == "") = false := by simpa using hd
    rw [hd'] at h
    simp only [Bool.false_eq_true, if_false] at h
    exact mem_firstViolation h

/-- A validation pass on the status field forces one of the three literal
    codes. -/
theorem userStatusErrors_nil {p : UserCommon} (h : userStatusErrors p = []) :
    p.userStatus = "A" ∨ p.userStatus = "I" ∨ p.userStatus = "T" := by
  cases hb : (p.userStatus == "A" || p.userStatus == "I" || p.userStatus == "T") with
  | true =>
    have hb' : (p.userStatus = "A" ∨ p.userStatus = "I") ∨ p.userStatus = "T" := by
      simpa using hb
    tauto
  | false =>
    exfalso
    by_cases hr : (p.userStatus != "") = true
    · simp [userStatusErrors, firstViolation, hr, hb] at h
    · have hr' : (p.userStatus != "") = false := by simpa using hr
      simp [userStatusErrors, firstViolation, hr', hb] at h

theorem validateUserCommon_nil_status {p : UserCommon} (h : validateUserCommon p = []) :
    p.userStatus = "A" ∨ p.userStatus = "I" ∨ p.userStatus = "T" := by
  apply userStatusErrors_nil
  simp only [validateUserCommon, List.append_eq_nil] at h
  exact h.1.2

/-! ## Claims -/

/-- C2: for every sequence of Create and Update operations accepted by the
    Service (starting from the empty store), the resulting store never
    contains two distinct Users with equal userName, nor two distinct Users
    with equal email. -/
theorem C2_store_uniqueness (ops : List Op) :
    ∀ u ∈ (runOps ops).rows, ∀ v ∈ (runOps ops).rows, u ≠ v →
      u.userName ≠ v.userName ∧ u.email ≠ v.email := by
  have inv : DbInv (runOps ops) := DbInv_foldl ops initialDb DbInv_initial
  intro u hu v hv hne
  exact ((inv.names.and inv.emails).forall (fun x y hp => ⟨hp.1.symm, hp.2.symm⟩)) hu hv hne

/-- Witness for C2 at a concrete two-create trace. -/
theorem C2_store_uniqueness_witness :
    (createdUser pJohn 1 1 1).userName ≠ (createdUser pJane 2 2 2).userName ∧
      (createdUser pJohn 1 1 1).email ≠ (createdUser pJane 2 2 2).email :=
  C2_store_uniqueness opsW (createdUser pJohn 1 1 1) (by decide)
    (createdUser pJane 2 2 2) (by decide) (by decide)

/-- C9: for every User visible in the store at any point of a trace of
    Create/Update operations timed by a monotonic clock, updatedAt is at
    least createdAt. -/
theorem C9_updatedAt_ge_createdAt (ops : List Op) (hw : opsWellTimed 0 ops) :
    ∀ u ∈ (runOps ops).rows, u.createdAt ≤ u.updatedAt :=
  timesOk_foldl ops 0 initialDb (by intro u hu; simp [initialDb] at hu) hw

/-- Witness for C9 at a concrete two-create trace. -/
theorem C9_updatedAt_ge_createdAt_witness :
    (createdUser pJohn 1 1 1).createdAt ≤ (createdUser pJohn 1 1 1).updatedAt :=
  C9_updatedAt_ge_createdAt opsW (by simp [opsW, opsWellTimed])
    (createdUser pJohn 1 1 1) (by decide)

/-- C3: when a Create or Update request carries a username and an email
    that are both already taken by other Users, the username conflict is
    the one reported: the username check runs before the email check. -/
theorem C3_userName_conflict_reported_first :
    (∀ (db : Db) (req : UserCreateRequest) (t1 t2 : Nat),
       dbExistsByUserName db req.userName = true →
       dbExistsByEmail db req.email 0 = true →
       svcCreateUser db req t1 t2 = .error "username already exists") ∧
    (∀ (db : Db) (id : Int) (req : UserUpdateRequest) (now : Nat) (user r e : User),
       dbGetByID db id = .ok user →
       r ∈ db.rows → r.userID ≠ user.userID → r.userName = req.userName →
       e ∈ db.rows → e.userID ≠ user.userID → e.email = req.email →
       db.rows.Pairwise (fun a b => a.userName ≠ b.userName) →
       svcUpdateUser db id req now = .error "username already exists") := by
  constructor
  · intro db req t1 t2 h1 h2
    rw [svcCreateUser_eq]
    have hb1 : (db.rows.any fun r => r.userName == req.userName) = true := h1
    simp [hb1]
  · intro db id req now user r e hget hr hrid hrname he heid hemail hpw
    have hf := dbGetByID_ok_find hget
    have huser : user ∈ db.rows := List.mem_of_find?_eq_some hf
    have hne_ru : r ≠ user := fun hequ => hrid (by rw [hequ])
    have hnn : r.userName ≠ user.userName :=
      (hpw.forall (fun _ _ hh => hh.symm)) hr huser hne_ru
    have husr : user.userName ≠ req.userName := fun hc => hnn (by rw [hrname, ← hc])
    rw [svcUpdateUser_eq_some req now hf]
    have hany : (db.rows.any fun x => x.userName == req.userName) = true := by
      simp only [List.any_eq_true]
      exact ⟨r, hr, by simp [hrname]⟩
    simp [husr, hany]

/-- Witness for C3: in dbW both parts fire on payloads whose username and
    email are Jane's. -/
theorem C3_userName_conflict_reported_first_witness :
    svcCreateUser dbW reqC3 5 5 = .error "username already exists" ∧
      svcUpdateUser dbW 1 reqC3u 5 = .error "username already exists" :=
  ⟨C3_userName_conflict_reported_first.1 dbW reqC3 5 5 (by decide) (by decide),
   C3_userName_conflict_reported_first.2 dbW 1 reqC3u 5
     (createdUser pJohn 1 1 1) (createdUser pJane 2 2 2) (createdUser pJane 2 2 2)
     (by decide) (by decide) (by decide) (by decide) (by decide) (by decide) (by decide)
     (by decide)⟩

/-- C4: an Update whose payload carries the subject's current email (and
    username) succeeds with no Conflict, and the email-existence query with
    a non-zero excludingID ignores exactly the subject's own row. -/
theorem C4_self_update_excluded :
    (∀ (db : Db) (id : Int) (req : UserUpdateRequest) (now : Nat) (user : User),
       dbGetByID db id = .ok user →
       req.email = user.email →
       req.userName = user.userName →
       (req.userStatus = "A" ∨ req.userStatus = "I" ∨ req.userStatus = "T") →
       db.rows.Pairwise (fun a b => a.email ≠ b.email) →
       svcUpdateUser db id req now =
         .ok ({ db with rows := db.rows.map (fun r =>
                  if r.userID == user.userID then applyUpdate user req now else r) },
              applyUpdate user req now)) ∧
    (∀ (db : Db) (email : String) (idv : Int), idv ≠ 0 →
       (dbExistsByEmail db email idv = true ↔
         ∃ r ∈ db.rows, r.email = email ∧ r.userID ≠ idv)) := by
  constructor
  · intro db id req now user hget hemail hname hs hpw
    have hf := dbGetByID_ok_find hget
    have huser : user ∈ db.rows := List.mem_of_find?_eq_some hf
    refine svcUpdateUser_success hf (Or.inl hname.symm) (Or.inl hemail.symm) ?_ hs
    intro r hr hrid hc
    have hne_ru : r ≠ user := fun hequ => hrid (by rw [hequ])
    exact (hpw.forall (fun _ _ hh => hh.symm)) hr huser hne_ru (by rw [hc, hemail])
  · intro db email idv hidv
    have : (idv == 0) = false := by simpa using hidv
    simp [dbExistsByEmail, this, List.any_eq_true]

/-- Witness for C4: John keeps his email while changing department; the
    exclusion query on dbW sees only Jane. -/
theorem C4_self_update_excluded_witness :
    svcUpdateUser dbW 1 reqC4 9 =
      .ok ({ dbW with rows := dbW.rows.map (fun r =>
               if r.userID == (createdUser pJohn 1 1 1).userID then
                 applyUpdate (createdUser pJohn 1 1 1) reqC4 9
               else r) },
           applyUpdate (createdUser pJohn 1 1 1) reqC4 9) ∧
      (dbExistsByEmail dbW "jane@doe.com" 1 = true ↔
        ∃ r ∈ dbW.rows, r.email = "jane@doe.com" ∧ r.userID ≠ 1) :=
  ⟨C4_self_update_excluded.1 dbW 1 reqC4 9 (createdUser pJohn 1 1 1)
     (by decide) (by decide) (by decide) (by decide) (by decide),
   C4_self_update_excluded.2 dbW ("jane@doe.com") 1 (by decide)⟩

/-- C7: after a successful Update, Get returns exactly the updated entity:
    every mutable field equals the payload, id and createdAt are the
    pre-update values, updatedAt is the update time. -/
theorem C7_full_replacement (db : Db) (id : Int) (req : UserUpdateRequest) (now : Nat)
    (db' : Db) (u' user : User)
    (hget : dbGetByID db id = .ok user)
    (hok : svcUpdateUser db id req now = .ok (db', u')) :
    svcGetUser db' id = .ok u' ∧
    u'.userName = req.userName ∧ u'.firstName = req.firstName ∧
    u'.lastName = req.lastName ∧ u'.email = req.email ∧
    u'.userStatus = req.userStatus ∧ u'.department = req.department ∧
    u'.userID = user.userID ∧ u'.createdAt = user.createdAt ∧ u'.updatedAt = now := by
  have hf := dbGetByID_ok_find hget
  rw [svcUpdateUser_eq_some req now hf] at hok
  split_ifs at hok
  simp only [Except.ok.injEq, Prod.mk.injEq] at hok
  obtain ⟨hdb, hu⟩ := hok
  subst hdb
  subst hu
  refine ⟨?_, by simp [applyUpdate], by simp [applyUpdate], by simp [applyUpdate],
    by simp [applyUpdate], by simp [applyUpdate], by simp [applyUpdate],
    by simp [applyUpdate], by simp [applyUpdate], by simp [applyUpdate]⟩
  show dbGetByID _ id = _
  simp only [dbGetByID]
  rw [find?_map_update (applyUpdate user req now) hf (by simp [applyUpdate])]

/-- Witness for C7 at the concrete update of John by reqC7. -/
theorem C7_full_replacement_witness :
    svcGetUser dbC7 1 = .ok uC7 ∧
    uC7.userName = reqC7.userName ∧ uC7.firstName = reqC7.firstName ∧
    uC7.lastName = reqC7.lastName ∧ uC7.email = reqC7.email ∧
    uC7.userStatus = reqC7.userStatus ∧ uC7.department = reqC7.department ∧
    uC7.userID = (createdUser pJohn 1 1 1).userID ∧
    uC7.createdAt = (createdUser pJohn 1 1 1).createdAt ∧ uC7.updatedAt = 9 :=
  C7_full_replacement dbW 1 reqC7 9 dbC7 uC7 (createdUser pJohn 1 1 1)
    (by decide) (by decide)

/-- C10: the Service performs no structural field validation: whenever the
    uniqueness guards are clear and the status code is legal, any payload
    is persisted with its fields unchanged, format rules notwithstanding. -/
theorem C10_service_skips_format_validation :
    (∀ (db : Db) (req : UserCreateRequest) (t1 t2 : Nat),
       dbExistsByUserName db req.userName = false →
       dbExistsByEmail db req.email 0 = false →
       (req.userStatus = "A" ∨ req.userStatus = "I" ∨ req.userStatus = "T") →
       svcCreateUser db req t1 t2 =
         .ok ({ rows := db.rows ++ [createdUser req db.nextId t1 t2],
                nextId := db.nextId + 1 },
              createdUser req db.nextId t1 t2) ∧
       (createdUser req db.nextId t1 t2).toUserCommon = req) ∧
    (∀ (db : Db) (id : Int) (req : UserUpdateRequest) (now : Nat) (user : User),
       dbGetByID db id = .ok user →
       id ≠ 0 →
       (user.userName = req.userName ∨ dbExistsByUserName db req.userName = false) →
       (∀ r ∈ db.rows, r.userID ≠ user.userID → r.email ≠ req.email) →
       (req.userStatus = "A" ∨ req.userStatus = "I" ∨ req.userStatus = "T") →
       svcUpdateUser db id req now =
         .ok ({ db with rows := db.rows.map (fun r =>
                  if r.userID == user.userID then applyUpdate user req now else r) },
              applyUpdate user req now) ∧
       (applyUpdate user req now).toUserCommon = req) := by
  constructor
  · intro db req t1 t2 h1 h2 h3
    exact ⟨svcCreateUser_success h1 h2 h3, rfl⟩
  · intro db id req now user hget hid0 hn hother hs
    have hf := dbGetByID_ok_find hget
    have huid : user.userID = id := by simpa using List.find?_some hf
    refine ⟨svcUpdateUser_success hf hn (Or.inr ?_) hother hs, rfl⟩
    have hb0 : (id == 0) = false := by simpa using hid0
    simp only [dbExistsByEmail, hb0, Bool.false_eq_true, if_false, List.any_eq_false]
    intro r hr
    by_cases hrid : r.userID = id
    · simp [hrid]
    · simp [hrid, hother r hr (fun hc => hrid (by rw [hc, huid]))]

/-- Witness for C10: the rule-violating payloads pBad and pBad2 are
    persisted verbatim by the Service. -/
theorem C10_service_skips_format_validation_witness :
    (svcCreateUser initialDb pBad 1 2 =
       .ok ({ rows := initialDb.rows ++ [createdUser pBad initialDb.nextId 1 2],
              nextId := initialDb.nextId + 1 },
            createdUser pBad initialDb.nextId 1 2) ∧
     (createdUser pBad initialDb.nextId 1 2).toUserCommon = pBad) ∧
    (svcUpdateUser { rows := [createdUser pBad 1 1 2], nextId := 2 } 1 pBad2 7 =
       .ok ({ ({ rows := [createdUser pBad 1 1 2], nextId := 2 } : Db) with
              rows := ({ rows := [createdUser pBad 1 1 2], nextId := 2 } : Db).rows.map
                (fun r => if r.userID == (createdUser pBad 1 1 2).userID then
                   applyUpdate (createdUser pBad 1 1 2) pBad2 7 else r) },
            applyUpdate (createdUser pBad 1 1 2) pBad2 7) ∧
     (applyUpdate (createdUser pBad 1 1 2) pBad2 7).toUserCommon = pBad2) :=
  ⟨C10_service_skips_format_validation.1 initialDb pBad 1 2
     (by decide) (by decide) (by decide),
   C10_service_skips_format_validation.2 { rows := [createdUser pBad 1 1 2], nextId := 2 }
     1 pBad2 7 (createdUser pBad 1 1 2) (by decide) (by decide)
     (by decide) (by decide) (by decide)⟩

/-- C5 (amended): a Create payload whose userName is nonempty and shorter
    than 4 characters is rejected at the handler with a 422 naming the
    UserName/min rule before any repository call (the state component is
    returned untouched for an arbitrary repository); an empty userName is
    likewise rejected before any call, but under the required rule. -/
theorem C5_short_userName_rejected_early :
    (∀ (σ : Type) (repo : UserRepository σ) (s : σ) (p : UserCreateRequest) (t1 t2 : Nat),
       p.userName ≠ "" → p.userName.length < 4 →
       userNameErrors p = [("UserName", "min")] ∧
       ("UserName", "min") ∈ validateUserCommon p ∧
       handleCreateUser repo s p t1 t2 =
         (s, .unprocessable (errsToString (validateUserCommon p)))) ∧
    (∀ (σ : Type) (repo : UserRepository σ) (s : σ) (p : UserCreateRequest) (t1 t2 : Nat),
       p.userName = "" →
       userNameErrors p = [("UserName", "required")] ∧
       handleCreateUser repo s p t1 t2 =
         (s, .unprocessable (errsToString (validateUserCommon p)))) := by
  constructor
  · intro σ repo s p t1 t2 h1 h2
    have hb : (p.userName != "") = true := by simpa using h1
    have hm : decide (4 ≤ p.userName.length) = false := by
      simp only [decide_eq_false_iff_not]
      omega
    have hun : userNameErrors p = [("UserName", "min")] := by
      simp [userNameErrors, firstViolation, hb, hm]
    refine ⟨hun, ?_, ?_⟩
    · simp only [validateUserCommon]
      refine List.mem_append.mpr (Or.inl ?_)
      refine List.mem_append.mpr (Or.inl ?_)
      refine List.mem_append.mpr (Or.inl ?_)
      refine List.mem_append.mpr (Or.inl ?_)
      refine List.mem_append.mpr (Or.inl ?_)
      simp [hun]
    · apply handleCreateUser_invalid
      intro hnil
      simp only [validateUserCommon, List.append_eq_nil] at hnil
      rw [hun] at hnil
      simp at hnil
  · intro σ repo s p t1 t2 h1
    have hb : (p.userName != "") = false := by simpa using h1
    have hun : userNameErrors p = [("UserName", "required")] := by
      simp [userNameErrors, firstViolation, hb]
    refine ⟨hun, ?_⟩
    apply handleCreateUser_invalid
    intro hnil
    simp only [validateUserCommon, List.append_eq_nil] at hnil
    rw [hun] at hnil
    simp at hnil

/-- Counterexample for C5 as frozen: an empty userName is shorter than 4
    characters, yet the reported rule is required, not the length rule. -/
theorem C5_counterexample :
    pEmptyName.userName.length < 4 ∧
    ("UserName", "min") ∉ validateUserCommon pEmptyName ∧
    userNameErrors pEmptyName = [("UserName", "required")] := by
  decide

/-- Witness for the amended C5 at the three-character and empty usernames. -/
theorem C5_short_userName_rejected_early_witness :
    (userNameErrors pAbc = [("UserName", "min")] ∧
     ("UserName", "min") ∈ validateUserCommon pAbc ∧
     handleCreateUser userRepository initialDb pAbc 1 1 =
       (initialDb, .unprocessable (errsToString (validateUserCommon pAbc)))) ∧
    (userNameErrors pEmptyName = [("UserName", "required")] ∧
     handleCreateUser userRepository initialDb pEmptyName 1 1 =
       (initialDb, .unprocessable (errsToString (validateUserCommon pEmptyName)))) :=
  ⟨C5_short_userName_rejected_early.1 Db userRepository initialDb pAbc 1 1
     (by decide) (by decide),
   C5_short_userName_rejected_early.2 Db userRepository initialDb pEmptyName 1 1
     (by decide)⟩

/-- C6: a whitespace-only department is rejected with a validation error on
    the Department field before any repository call; an empty department
    passes validation and the created User stores department = "". -/
theorem C6_department_whitespace_rule :
    (∀ (σ : Type) (repo : UserRepository σ) (s : σ) (p : UserCreateRequest) (t1 t2 : Nat),
       p.department ≠ "" → isWhitespaceOnly p.department = true →
       departmentErrors p ≠ [] ∧
       (∀ x ∈ departmentErrors p, x.1 = "Department") ∧
       handleCreateUser repo s p t1 t2 =
         (s, .unprocessable (errsToString (validateUserCommon p)))) ∧
    (∀ (db : Db) (p : UserCreateRequest) (t1 t2 : Nat),
       p.department = "" →
       validateUserCommon p = [] →
       dbExistsByUserName db p.userName = false →
       dbExistsByEmail db p.email 0 = false →
       handleCreateUser userRepository db p t1 t2 =
         ({ rows := db.rows ++ [createdUser p db.nextId t1 t2], nextId := db.nextId + 1 },
          .created (createdUser p db.nextId t1 t2)) ∧
       (createdUser p db.nextId t1 t2).department = "") := by
  constructor
  · intro σ repo s p t1 t2 hne hws
    have hd : (p.department == "") = false := by simpa using hne
    have hdept : departmentErrors p ≠ [] := by
      simp only [departmentErrors, hd, Bool.false_eq_true, if_false]
      cases hm : decide (p.department.length ≤ 255) with
      | false => simp [firstViolation, hm]
      | true =>
        have ha : IsAlphanumUnicodeWithSpaces p.department = false := by
          simp [IsAlphanumUnicodeWithSpaces, hws]
        simp [firstViolation, hm, ha]
    refine ⟨hdept, fun x hx => mem_departmentErrors hx, ?_⟩
    apply handleCreateUser_invalid
    intro hnil
    simp only [validateUserCommon, List.append_eq_nil] at hnil
    exact hdept hnil.2
  · intro db p t1 t2 hdep hval h1 h2
    have hs := validateUserCommon_nil_status hval
    have hok : createUser userRepository db p t1 t2 =
        .ok ({ rows := db.rows ++ [createdUser p db.nextId t1 t2], nextId := db.nextId + 1 },
             createdUser p db.nextId t1 t2) := svcCreateUser_success h1 h2 hs
    constructor
    · simp only [handleCreateUser, hval, hok]
    · simp [createdUser, hdep]

/-- Witness for C6 at the whitespace-only and empty departments. -/
theorem C6_department_whitespace_rule_witness :
    (departmentErrors pWS ≠ [] ∧
     (∀ x ∈ departmentErrors pWS, x.1 = "Department") ∧
     handleCreateUser userRepository initialDb pWS 1 1 =
       (initialDb, .unprocessable (errsToString (validateUserCommon pWS)))) ∧
    (handleCreateUser userRepository initialDb pNoDept 1 1 =
       ({ rows := initialDb.rows ++ [createdUser pNoDept initialDb.nextId 1 1],
          nextId := initialDb.nextId + 1 },
        .created (createdUser pNoDept initialDb.nextId 1 1)) ∧
     (createdUser pNoDept initialDb.nextId 1 1).department = "") :=
  ⟨C6_department_whitespace_rule.1 Db userRepository initialDb pWS 1 1
     (by decide) (by decide),
   C6_department_whitespace_rule.2 initialDb pNoDept 1 1
     (by decide) (by decide) (by decide) (by decide)⟩

/-- C8 (amended): validation computes a list of (field, rule) pairs with at
    most one entry per field, but UserHandler.CreateUser returns them to
    the API caller serialized into one string (err.Error()) under the error
    key of a 422 response, not as structured pairs. -/
theorem C8_field_errors_serialized_to_single_string :
    (∀ (σ : Type) (repo : UserRepository σ) (s : σ) (p : UserCreateRequest) (t1 t2 : Nat),
       validateUserCommon p ≠ [] →
       handleCreateUser repo s p t1 t2 =
         (s, .unprocessable (errsToString (validateUserCommon p)))) ∧
    (∀ p : UserCommon, (validateUserCommon p).Pairwise (fun a b => a.1 ≠ b.1)) := by
  constructor
  · intro σ repo s p t1 t2 h
    exact handleCreateUser_invalid repo s p t1 t2 h
  · intro p
    rcases userNameErrors_shape p with h1 | ⟨t1, h1⟩ <;>
    rcases firstNameErrors_shape p with h2 | ⟨t2, h2⟩ <;>
    rcases lastNameErrors_shape p with h3 | ⟨t3, h3⟩ <;>
    rcases emailErrors_shape p with h4 | ⟨t4, h4⟩ <;>
    rcases userStatusErrors_shape p with h5 | ⟨t5, h5⟩ <;>
    rcases departmentErrors_shape p with h6 | ⟨t6, h6⟩ <;>
      simp [validateUserCommon, h1, h2, h3, h4, h5, h6, List.pairwise_append]

/-- Counterexample for C8 as frozen: with two violated fields the caller
    receives one concatenated string, not a set of pairs. -/
theorem C8_counterexample :
    validateUserCommon pTwoBad = [("UserName", "min"), ("FirstName", "required")] ∧
    (handleCreateUser userRepository initialDb pTwoBad 1 1).2 =
      .unprocessable
        ("Field validation for UserName failed on the min tag; Field validation for FirstName failed on the required tag") := by
  decide

/-- Witness for the amended C8 at the two-invalid-field payload. -/
theorem C8_field_errors_serialized_to_single_string_witness :
    handleCreateUser userRepository initialDb pTwoBad 1 1 =
      (initialDb, .unprocessable (errsToString (validateUserCommon pTwoBad))) :=
  C8_field_errors_serialized_to_single_string.1 Db userRepository initialDb pTwoBad 1 1
    (by decide)

/-- C1 (amended): the Service does not translate store write errors: when
    both pre-checks pass and the status is legal, a repository error at
    insert/update time — a unique-constraint violation included — is
    returned to the caller verbatim, not as the Uniqueness Guard messages. -/
theorem C1_store_error_passthrough :
    (∀ (σ : Type) (repo : UserRepository σ) (s : σ) (req : UserCreateRequest)
       (t1 t2 : Nat) (e : String),
       repo.existsByUserName s req.userName = .ok false →
       repo.existsByEmail s req.email 0 = .ok false →
       (req.userStatus = "A" ∨ req.userStatus = "I" ∨ req.userStatus = "T") →
       repo.create s (mkNewUser req t1 t2) = .error e →
       createUser repo s req t1 t2 = .error e) ∧
    (∀ (σ : Type) (repo : UserRepository σ) (s : σ) (id : Int) (req : UserUpdateRequest)
       (now : Nat) (user : User) (e : String),
       repo.getByID s id = .ok user →
       user.userName = req.userName → user.email = req.email →
       (req.userStatus = "A" ∨ req.userStatus = "I" ∨ req.userStatus = "T") →
       repo.update s (applyUpdate user req now) = .error e →
       updateUser repo s id req now = .error e) := by
  constructor
  · intro σ repo s req t1 t2 e h1 h2 h3 hc
    rcases h3 with h | h | h <;>
      simp [createUser, h1, h2, h, hc,
        UserStatusActive, UserStatusInactive, UserStatusTerminated]
  · intro σ repo s id req now user e hget hn he hs hupd
    rcases hs with h | h | h <;>
      simp [updateUser, hget, hn, he, h, hupd,
        UserStatusActive, UserStatusInactive, UserStatusTerminated]

/-- Counterexample for C1 as frozen: in the race window the Service hands
    the raw Postgres message through; the create handler would surface it
    as a 400 with that text and the update handler turns it into a 404,
    neither being the Guard conflict message. -/
theorem C1_counterexample :
    createUser racyRepo () pJohn 1 1 = .error pgUniqueViolation ∧
    createUser racyRepo () pJohn 1 1 ≠ .error "email already exists" ∧
    createUser racyRepo () pJohn 1 1 ≠ .error "username already exists" ∧
    (handleCreateUser racyRepo () pJohn 1 1).2 = .badRequest pgUniqueViolation ∧
    (handleUpdateUser racyRepo () 1 pJohn 5).2 = .notFound ("user not found") := by
  refine ⟨rfl, by decide, by decide, rfl, by decide⟩

/-- Witness for the amended C1 at the racy repository. -/
theorem C1_store_error_passthrough_witness :
    createUser racyRepo () pJohn 1 1 = .error pgUniqueViolation ∧
    updateUser racyRepo () 1 pJohn 5 = .error pgUniqueViolation :=
  ⟨C1_store_error_passthrough.1 Unit racyRepo () pJohn 1 1 pgUniqueViolation
     rfl rfl (Or.inl rfl) rfl,
   C1_store_error_passthrough.2 Unit racyRepo () 1 pJohn 5 (createdUser pJohn 1 1 1)
     pgUniqueViolation rfl rfl rfl (Or.inl rfl) rfl⟩

end UserMgmt
